import Mathlib

/-!
Verification of the ripht-php-sapi request lifecycle core.

Shallow embedding conventions:
* Byte sequences (`&[u8]`, `Vec<u8>`, `CString` contents) are `List Nat`
  with each element a byte value.
* Rust `String`/`str` values are `List Nat` of Unicode scalar values
  (code points), matching the `char`-level view that `str::trim` and
  `String::from_utf8_lossy` operate on.
* Machine integers (`usize`, `u16`, `c_int`) are `Nat`/`Int`; saturating
  arithmetic on `usize` is written out explicitly against `USIZE_MAX`.
* The foreign PHP engine is an oracle parameter: request-startup success,
  the script-execution effect on the active `ServerContext`, and the
  request-shutdown effect are inputs to the executor model.
-/

/-- `u8::is_ascii_whitespace`: space, horizontal tab, line feed,
form feed, carriage return (src/execution/header.rs value-start scan). -/
def is_ascii_whitespace (b : Nat) : Bool :=
  b = 32 || b = 9 || b = 10 || b = 12 || b = 13

/-- A UTF-8 continuation byte: `0x80 ..= 0xBF`. -/
def utf8Cont (b : Nat) : Bool :=
  128 ≤ b && b ≤ 191

/-- One UTF-8 decoding step on a non-empty byte list: either a decoded
scalar value together with the number of bytes it occupied, or `none`
with the length of the maximal ill-formed subpart to skip (exactly the
`error_len` convention of `std::str::from_utf8`, RFC 3629 ranges: no
overlongs, no surrogates, max U+10FFFF). Non-recursive. -/
def utf8Chunk : List Nat → Option Nat × Nat
  | [] => (none, 1)
  | b :: rest =>
    if b ≤ 127 then (some b, 1)
    else if 194 ≤ b && b ≤ 223 then
      match rest with
      | b2 :: _ =>
        if utf8Cont b2 then (some ((b - 192) * 64 + (b2 - 128)), 2)
        else (none, 1)
      | [] => (none, 1)
    else if 224 ≤ b && b ≤ 239 then
      match rest with
      | b2 :: r2 =>
        if (if b = 224 then 160 ≤ b2 && b2 ≤ 191
            else if b = 237 then 128 ≤ b2 && b2 ≤ 159
            else utf8Cont b2) then
          match r2 with
          | b3 :: _ =>
            if utf8Cont b3 then
              (some ((b - 224) * 4096 + (b2 - 128) * 64 + (b3 - 128)), 3)
            else (none, 2)
          | [] => (none, 2)
        else (none, 1)
      | [] => (none, 1)
    else if 240 ≤ b && b ≤ 244 then
      match rest with
      | b2 :: r2 =>
        if (if b = 240 then 144 ≤ b2 && b2 ≤ 191
            else if b = 244 then 128 ≤ b2 && b2 ≤ 143
            else utf8Cont b2) then
          match r2 with
          | b3 :: r3 =>
            if utf8Cont b3 then
              match r3 with
              | b4 :: _ =>
                if utf8Cont b4 then
                  (some ((b - 240) * 262144 + (b2 - 128) * 4096
                          + (b3 - 128) * 64 + (b4 - 128)), 4)
                else (none, 3)
              | [] => (none, 3)
            else (none, 2)
          | [] => (none, 2)
        else (none, 1)
      | [] => (none, 1)
    else (none, 1)

/-- Strict UTF-8 decoding loop, fuelled (each chunk consumes at least one
byte, so fuel equal to the list length always suffices). -/
def utf8Go : Nat → List Nat → Option (List Nat)
  | _, [] => some []
  | 0, _ :: _ => none
  | fuel + 1, b :: rest =>
    match utf8Chunk (b :: rest) with
    | (some c, k) => (utf8Go fuel ((b :: rest).drop k)).map (fun cs => c :: cs)
    | (none, _) => none

/-- `std::str::from_utf8` on a byte list: the decoded scalar values on
success, `none` on any ill-formed sequence. -/
def from_utf8 (l : List Nat) : Option (List Nat) :=
  utf8Go l.length l

/-- Lossy UTF-8 decoding loop, fuelled. -/
def lossyGo : Nat → List Nat → List Nat
  | _, [] => []
  | 0, _ :: _ => []
  | fuel + 1, b :: rest =>
    match utf8Chunk (b :: rest) with
    | (some c, k) => c :: lossyGo fuel ((b :: rest).drop k)
    | (none, k) => 65533 :: lossyGo fuel ((b :: rest).drop k)

/-- `String::from_utf8_lossy` on a byte list: well-formed sequences decode
normally, each maximal ill-formed subpart is replaced by one U+FFFD
(65533), and a truncated-but-so-far-valid trailing sequence yields one
final U+FFFD. -/
def from_utf8_lossy (l : List Nat) : List Nat :=
  lossyGo l.length l

/-- `char::is_whitespace` (Unicode `White_Space`) on a scalar value,
as used by `str::trim` on the parsed header name. -/
def char_is_whitespace (c : Nat) : Bool :=
  c = 9 || c = 10 || c = 11 || c = 12 || c = 13 || c = 32 ||
  c = 133 || c = 160 || c = 5760 || (8192 ≤ c && c ≤ 8202) ||
  c = 8232 || c = 8233 || c = 8239 || c = 8287 || c = 12288

/-- `str::trim` on a list of scalar values. -/
def strTrim (s : List Nat) : List Nat :=
  ((s.dropWhile char_is_whitespace).reverse.dropWhile char_is_whitespace).reverse

/-- `memchr::memchr(needle, haystack)`: index of the first occurrence. -/
def memchr (needle : Nat) : List Nat → Option Nat
  | [] => none
  | b :: rest =>
    if b = needle then some 0 else (memchr needle rest).map (fun i => i + 1)

/-- `ResponseHeader` (src/execution/header.rs): name and value as decoded
strings (scalar-value lists). -/
structure ResponseHeader where
  name : List Nat
  value : List Nat
deriving DecidableEq, Repr

/-- `ResponseHeader::parse` (src/execution/header.rs): find the first
colon (reject if absent or at offset 0), skip ASCII whitespace after the
colon, require a UTF-8 name that trims to something non-empty, and decode
the value lossily when it is not valid UTF-8. -/
def ResponseHeader.parse (bytes : List Nat) : Option ResponseHeader :=
  match memchr 58 bytes with
  | none => none
  | some colonPos =>
    if colonPos = 0 then none
    else
      let nameBytes := bytes.take colonPos
      let valueBytes := (bytes.drop (colonPos + 1)).dropWhile is_ascii_whitespace
      match from_utf8 nameBytes with
      | none => none
      | some nameStr =>
        let nameTrimmed := strTrim nameStr
        if nameTrimmed = [] then none
        else
          let valueStr :=
            match from_utf8 valueBytes with
            | some s => s
            | none => from_utf8_lossy valueBytes
          some ⟨nameTrimmed, valueStr⟩

example : ResponseHeader.parse [88, 58, 32, 97] = some ⟨[88], [97]⟩ := by decide
example : ResponseHeader.parse [88, 45, 69, 58] = some ⟨[88, 45, 69], []⟩ := by decide
example : ResponseHeader.parse [73, 110, 118] = none := by decide
example : ResponseHeader.parse [58, 32, 118] = none := by decide
example : ResponseHeader.parse [88, 255, 58, 118] = none := by decide
example : ResponseHeader.parse [88, 58, 255, 254] = some ⟨[88], [65533, 65533]⟩ := by decide

theorem memchr_eq_none_of_not_mem (c : Nat) (l : List Nat) (h : c ∉ l) :
    memchr c l = none := by
  induction l with
  | nil => rfl
  | cons b rest ih =>
    simp only [memchr]
    rw [if_neg (by simp at h; omega), ih (by simp at h; exact h.2)]
    rfl

theorem memchr_append_cons (c : Nat) (xs ys : List Nat) (h : c ∉ xs) :
    memchr c (xs ++ c :: ys) = some xs.length := by
  induction xs with
  | nil => simp [memchr]
  | cons b rest ih =>
    simp only [List.cons_append, memchr, List.append_eq]
    rw [if_neg (by simp at h; omega), ih (by simp at h; exact h.2)]
    simp

theorem take_length_append (xs ys : List Nat) : (xs ++ ys).take xs.length = xs := by
  induction xs with
  | nil => rfl
  | cons b rest ih => simp [ih]

theorem drop_length_succ_append (xs : List Nat) (c : Nat) (ys : List Nat) :
    (xs ++ c :: ys).drop (xs.length + 1) = ys := by
  induction xs with
  | nil => rfl
  | cons b rest ih => simp

theorem dropWhile_eq_nil_of_all (p : Nat → Bool) (l : List Nat)
    (h : ∀ b ∈ l, p b = true) : l.dropWhile p = [] := by
  induction l with
  | nil => rfl
  | cons b rest ih =>
    simp only [List.dropWhile]
    rw [h b (by simp)]
    exact ih (fun x hx => h x (by simp [hx]))

theorem from_utf8_nil : from_utf8 [] = some [] := rfl

theorem utf8Chunk_snd_pos (b : Nat) (rest : List Nat) :
    1 ≤ (utf8Chunk (b :: rest)).2 := by
  unfold utf8Chunk
  repeat' split
  all_goals simp

theorem mem_lossyGo (fuel : Nat) : ∀ l : List Nat, l.length ≤ fuel →
    utf8Go fuel l = none → 65533 ∈ lossyGo fuel l := by
  induction fuel with
  | zero =>
    intro l hl h
    match l with
    | [] => simp [utf8Go] at h
    | _ :: _ => simp at hl
  | succ n ih =>
    intro l hl h
    match l with
    | [] => simp [utf8Go] at h
    | b :: rest =>
      rcases hc : utf8Chunk (b :: rest) with ⟨oc, k⟩
      have hk : 1 ≤ k := by
        have hp := utf8Chunk_snd_pos b rest
        rw [hc] at hp
        exact hp
      cases oc with
      | none => simp [lossyGo, hc]
      | some c =>
        have hrec : utf8Go n ((b :: rest).drop k) = none := by
          simp only [utf8Go, hc] at h
          cases hgo : utf8Go n ((b :: rest).drop k) with
          | none => rfl
          | some cs => rw [hgo] at h; simp at h
        have hlen : ((b :: rest).drop k).length ≤ n := by
          simp only [List.length_drop, List.length_cons] at hl ⊢
          omega
        have hm := ih _ hlen hrec
        simp only [lossyGo, hc, List.mem_cons]
        exact Or.inr hm

/-- Strict decoding failure always leaves at least one replacement
character in the lossy decoding. -/
theorem mem_lossy_of_invalid (l : List Nat) (h : from_utf8 l = none) :
    65533 ∈ from_utf8_lossy l :=
  mem_lossyGo l.length l (Nat.le_refl _) h

/-- C6: parsing header bytes with no colon, a colon at offset 0, or a
non-UTF-8 name yields no header; bytes of the form name ++ ":" followed
only by ASCII whitespace yield the header with that name and an empty
value. -/
theorem C6_header_parse_malformed_dropped_empty_value_kept
    (bytes name ws tail rest : List Nat) :
    (58 ∉ bytes → ResponseHeader.parse bytes = none) ∧
    (ResponseHeader.parse (58 :: tail) = none) ∧
    (58 ∉ name → from_utf8 name = none →
      ResponseHeader.parse (name ++ 58 :: rest) = none) ∧
    (58 ∉ name → (∀ b ∈ ws, is_ascii_whitespace b = true) →
      ∀ nameStr, from_utf8 name = some nameStr → strTrim nameStr = nameStr →
      nameStr ≠ [] →
      ResponseHeader.parse (name ++ 58 :: ws) = some ⟨nameStr, []⟩) := by
  refine ⟨?_, ?_, ?_, ?_⟩
  · intro h
    simp only [ResponseHeader.parse]
    rw [memchr_eq_none_of_not_mem 58 bytes h]
  · simp [ResponseHeader.parse, memchr]
  · intro hnc hdec
    by_cases hn : name = []
    · subst hn
      simp [from_utf8, utf8Go] at hdec
    · have hpos : ¬ name.length = 0 := by simpa using hn
      simp only [ResponseHeader.parse, memchr_append_cons 58 name rest hnc,
        if_neg hpos, take_length_append, hdec]
  · intro hnc hws nameStr hdec htrim hne
    by_cases hn : name = []
    · subst hn
      have h1 : ([] : List Nat) = nameStr := Option.some.inj hdec
      exact absurd h1.symm hne
    · have hpos : ¬ name.length = 0 := by simpa using hn
      simp only [ResponseHeader.parse, memchr_append_cons 58 name ws hnc,
        if_neg hpos, take_length_append, hdec, drop_length_succ_append,
        dropWhile_eq_nil_of_all is_ascii_whitespace ws hws, htrim, if_neg hne,
        from_utf8_nil]

theorem C6_witness :
    ResponseHeader.parse [73, 110, 118] = none ∧
    ResponseHeader.parse (58 :: [32, 118]) = none ∧
    ResponseHeader.parse ([88, 255] ++ 58 :: [118]) = none ∧
    ResponseHeader.parse ([78, 97, 109, 101] ++ 58 :: [32, 32])
      = some ⟨[78, 97, 109, 101], []⟩ := by
  refine ⟨?_, ?_, ?_, ?_⟩
  · exact (C6_header_parse_malformed_dropped_empty_value_kept
      [73, 110, 118] [] [] [] []).1 (by decide)
  · exact (C6_header_parse_malformed_dropped_empty_value_kept
      [] [] [] [32, 118] []).2.1
  · exact (C6_header_parse_malformed_dropped_empty_value_kept
      [] [88, 255] [] [] [118]).2.2.1 (by decide) (by decide)
  · exact (C6_header_parse_malformed_dropped_empty_value_kept
      [] [78, 97, 109, 101] [32, 32] [] []).2.2.2 (by decide) (by decide)
      [78, 97, 109, 101] (by decide) (by decide) (by decide)

/-- C10: a header whose name is valid (UTF-8, trims non-empty) but whose
value bytes are not valid UTF-8 is not dropped: the value is decoded
lossily, with ill-formed byte sequences replaced by U+FFFD. -/
theorem C10_invalid_value_lossily_decoded (name rest nameStr : List Nat)
    (hnc : 58 ∉ name) (hdec : from_utf8 name = some nameStr)
    (hne : strTrim nameStr ≠ [])
    (hbad : from_utf8 (rest.dropWhile is_ascii_whitespace) = none) :
    ResponseHeader.parse (name ++ 58 :: rest)
      = some ⟨strTrim nameStr,
              from_utf8_lossy (rest.dropWhile is_ascii_whitespace)⟩ ∧
    65533 ∈ from_utf8_lossy (rest.dropWhile is_ascii_whitespace) := by
  constructor
  · by_cases hn : name = []
    · subst hn
      have h1 : ([] : List Nat) = nameStr := Option.some.inj hdec
      exact absurd (by rw [← h1]; rfl) hne
    · have hpos : ¬ name.length = 0 := by simpa using hn
      simp only [ResponseHeader.parse, memchr_append_cons 58 name rest hnc,
        if_neg hpos, take_length_append, hdec, drop_length_succ_append,
        hbad, if_neg hne]
  · exact mem_lossy_of_invalid _ hbad

theorem C10_witness :
    ResponseHeader.parse ([88] ++ 58 :: [32, 255, 254])
      = some ⟨strTrim [88],
              from_utf8_lossy ([32, 255, 254].dropWhile is_ascii_whitespace)⟩ ∧
    65533 ∈ from_utf8_lossy ([32, 255, 254].dropWhile is_ascii_whitespace) :=
  C10_invalid_value_lossily_decoded [88] [32, 255, 254] [88]
    (by decide) (by decide) (by decide) (by decide)

/-- `usize::MAX`, for the saturating arithmetic in `write_output`. -/
def USIZE_MAX : Nat := 2 ^ 64 - 1

/-- `usize::saturating_mul`. -/
def usizeSatMul (a b : Nat) : Nat := min (a * b) USIZE_MAX

/-- `usize::saturating_add`. -/
def usizeSatAdd (a b : Nat) : Nat := min (a + b) USIZE_MAX

def MIN_BUFFER_SIZE : Nat := 4096

def DEFAULT_BUFFER_SIZE : Nat := 65536

/-- `Growth` (src/sapi/server_context.rs): buffer growth strategy. -/
inductive Growth where
  | X4
  | X2
  | Fixed (step : Nat)
deriving DecidableEq, Repr

/-- `BufferPolicy` (src/sapi/server_context.rs). -/
structure BufferPolicy where
  initial_cap : Nat
  strategy : Growth
deriving DecidableEq, Repr

/-- An ASCII decimal digit value. -/
def decDigit (c : Nat) : Option Nat :=
  if 48 ≤ c && c ≤ 57 then some (c - 48) else none

def parseUsizeCore : List Nat → Nat → Option Nat
  | [], acc => some acc
  | c :: rest, acc =>
    match decDigit c with
    | some d => parseUsizeCore rest (acc * 10 + d)
    | none => none

/-- `str::parse::<usize>`: optional leading `+`, then one or more ASCII
digits, the value fitting in `usize`. -/
def parse_usize (s : List Nat) : Option Nat :=
  let t := match s with
    | 43 :: rest => rest
    | _ => s
  match t with
  | [] => none
  | _ :: _ =>
    match parseUsizeCore t 0 with
    | some n => if n ≤ USIZE_MAX then some n else none
    | none => none

/-- The `BufferPolicy` computed by `buffer_policy`
(src/sapi/server_context.rs) from the environment: `initBuf` is the value
of `SAPI_INIT_BUF` and `growthVar` that of `SAPI_BUF_GROWTH`, each `none`
when the variable is unset or not valid UTF-8 (`std::env::var(..).ok()`). -/
def computeBufferPolicy (initBuf growthVar : Option (List Nat)) : BufferPolicy :=
  let cap : Nat :=
    match initBuf.bind parse_usize with
    | some n => if MIN_BUFFER_SIZE ≤ n then n else DEFAULT_BUFFER_SIZE
    | none => DEFAULT_BUFFER_SIZE
  let strategy : Growth :=
    if growthVar = some [120, 50] ∨ growthVar = some [88, 50] then Growth.X2
    else if growthVar = some [102, 105, 120, 101, 100, 51, 50, 107] then
      Growth.Fixed (32 * 1024)
    else Growth.X4
  ⟨cap, strategy⟩

/-- `OnceLock::get_or_init` on the process-wide `BUFFER_POLICY` slot:
the stored value wins; otherwise the policy is computed from the
environment and stored. Returns the policy and the updated slot. -/
def bufferPolicyGetOrInit (slot : Option BufferPolicy)
    (initBuf growthVar : Option (List Nat)) : BufferPolicy × Option BufferPolicy :=
  match slot with
  | some p => (p, some p)
  | none =>
    let p := computeBufferPolicy initBuf growthVar
    (p, some p)

/-- `SyslogLevel` (src/execution/message.rs). -/
inductive SyslogLevel where
  | Emergency
  | Alert
  | Critical
  | Error
  | Warning
  | Notice
  | Info
  | Debug
deriving DecidableEq, Repr

/-- `ExecutionMessage` (src/execution/message.rs): severity plus text
(scalar values). -/
structure ExecutionMessage where
  message : List Nat
  level : SyslogLevel
deriving DecidableEq, Repr

/-- `ServerVarsCString` (src/sapi/server_vars.rs): NUL-free byte strings. -/
structure ServerVarsCString where
  vars : List (List Nat × List Nat)
  content_type : Option (List Nat)
  query_string : Option (List Nat)
  cookie : Option (List Nat)
  request_method : Option (List Nat)
deriving DecidableEq, Repr

/-- `ServerContext` (src/sapi/server_context.rs). The output buffer's
`Vec` capacity is tracked explicitly. The optional boxed callbacks are
modelled by their observable behaviour: `has_output_callback` records
whether a streaming output callback is installed and `streamed` the
chunks forwarded to it in order; likewise `has_flush_callback`. -/
structure ServerContext where
  status_code : Nat
  post_data : List Nat
  post_position : Nat
  output_buffer : List Nat
  output_capacity : Nat
  messages : List ExecutionMessage
  vars : Option ServerVarsCString
  env_vars : List (List Nat × List Nat)
  ini_overrides : List (List Nat × List Nat)
  response_headers : List ResponseHeader
  has_output_callback : Bool
  streamed : List (List Nat)
  has_flush_callback : Bool
  log_to_stderr : Bool
deriving DecidableEq, Repr

/-- `ServerContext::new`: the buffer starts empty at the policy's initial
capacity, the status defaults to 200. The process-wide memoized policy is
passed explicitly. -/
def ServerContext.new (policy : BufferPolicy) : ServerContext where
  status_code := 200
  post_data := []
  post_position := 0
  output_buffer := []
  output_capacity := policy.initial_cap
  messages := []
  vars := none
  env_vars := []
  ini_overrides := []
  response_headers := []
  has_output_callback := false
  streamed := []
  has_flush_callback := false
  log_to_stderr := false

/-- The `while cap < required { cap = cap.saturating_add(step) }` loop of
the fixed-step growth strategy, fuelled; fuel `required + 1` suffices for
any positive step (the source only ever constructs step 32768). -/
def fixedGrowLoop : Nat → Nat → Nat → Nat → Nat
  | 0, _, _, cap => cap
  | fuel + 1, required, step, cap =>
    if cap < required then fixedGrowLoop fuel required step (usizeSatAdd cap step)
    else cap

/-- The new capacity computed by `ServerContext::write_output` when the
pending write exceeds the current capacity
(src/sapi/server_context.rs lines 175-192). -/
def grownCapacity (policy : BufferPolicy) (actual required : Nat) : Nat :=
  match policy.strategy with
  | Growth.X4 => max (usizeSatMul actual 4) (required + policy.initial_cap)
  | Growth.X2 => max (usizeSatMul actual 2) (required + policy.initial_cap)
  | Growth.Fixed step => fixedGrowLoop (required + 1) required step actual

/-- `ServerContext::write_output`: forward to the streaming callback when
one is installed (buffer untouched), otherwise grow capacity if the write
does not fit and append the bytes. Returns the context and the byte count
accepted (always `data.len()`). `Vec::reserve(new_cap - len)` is modelled
as raising the capacity to `new_cap`. -/
def ServerContext.write_output (policy : BufferPolicy) (ctx : ServerContext)
    (data : List Nat) : ServerContext × Nat :=
  if ctx.has_output_callback then
    ({ ctx with streamed := ctx.streamed ++ [data] }, data.length)
  else
    let actual := ctx.output_capacity
    let required := ctx.output_buffer.length + data.length
    let newCap := if actual < required then grownCapacity policy actual required else actual
    ({ ctx with
        output_buffer := ctx.output_buffer ++ data
        output_capacity := newCap }, data.length)

/-- `ServerContext::add_header`: push onto the response header list. -/
def ServerContext.add_header (ctx : ServerContext) (h : ResponseHeader) : ServerContext :=
  { ctx with response_headers := ctx.response_headers ++ [h] }

/-- `ServerContext::set_status`. -/
def ServerContext.set_status (ctx : ServerContext) (code : Nat) : ServerContext :=
  { ctx with status_code := code }

/-- `ServerContext::add_message`. -/
def ServerContext.add_message (ctx : ServerContext) (m : ExecutionMessage) : ServerContext :=
  { ctx with messages := ctx.messages ++ [m] }

/-- `ExecutionResult` (src/execution/result.rs). -/
structure ExecutionResult where
  status : Nat
  body : List Nat
  headers : List ResponseHeader
  messages : List ExecutionMessage
deriving DecidableEq, Repr

/-- `ServerContext::into_result`. -/
def ServerContext.into_result (ctx : ServerContext) (body : List Nat) : ExecutionResult :=
  ⟨ctx.status_code, body, ctx.response_headers, ctx.messages⟩

def HTTP_STATUS_MIN : Int := 100

def HTTP_STATUS_MAX : Int := 599

def HTTP_STATUS_FALLBACK : Nat := 500

/-- `ripht_sapi_send_header` (src/sapi/callbacks.rs): a null/empty header
entry is skipped, otherwise the bytes are parsed and the header appended
when parsing succeeds. The null-context early return is outside the model
(the context is the explicit argument). -/
def ripht_sapi_send_header (ctx : ServerContext) (bytes : List Nat) : ServerContext :=
  if bytes.length = 0 then ctx
  else
    match ResponseHeader.parse bytes with
    | some h => ctx.add_header h
    | none => ctx

/-- `ripht_sapi_send_headers` (src/sapi/callbacks.rs): record the engine's
status code clamped to [100, 599] with fallback 500, clear the captured
header list, then feed every entry of the engine's native header list
through `ripht_sapi_send_header` in order. The null-argument and
null-context failure returns leave the context untouched and are outside
the model. -/
def ripht_sapi_send_headers (ctx : ServerContext) (http_response_code : Int)
    (headers : List (List Nat)) : ServerContext :=
  let status_code : Nat :=
    if ¬ (HTTP_STATUS_MIN ≤ http_response_code ∧ http_response_code ≤ HTTP_STATUS_MAX)
    then HTTP_STATUS_FALLBACK
    else http_response_code.toNat
  let ctx1 := ctx.set_status status_code
  let ctx2 := { ctx1 with response_headers := [] }
  headers.foldl ripht_sapi_send_header ctx2

/-- `ServerVars` (src/sapi/server_vars.rs): ordered pair list plus the
tracked special values. -/
structure ServerVars where
  cookie : Option (List Nat)
  vars : List (List Nat × List Nat)
  content_type : Option (List Nat)
  query_string : Option (List Nat)
  request_method : Option (List Nat)
deriving DecidableEq, Repr

/-- `ExecutionContext` (src/execution/context.rs). The `From` impl in
src/sapi/server_context.rs also reads a `log_to_stderr` flag, so the
model carries it. -/
structure ExecutionContext where
  input : List Nat
  script_path : List Nat
  server_vars : ServerVars
  env_vars : List (List Nat × List Nat)
  ini_overrides : List (List Nat × List Nat)
  log_to_stderr : Bool
deriving DecidableEq, Repr

/-- `CString::new`: fails exactly when the bytes contain a NUL. -/
def cstring_new (s : List Nat) : Option (List Nat) :=
  if 0 ∈ s then none else some s

/-- The `filter_map` over string pairs shared by `into_cstring_pairs` and
the `From<ExecutionContext>` impl: both components must convert. -/
def cstringPairs (l : List (List Nat × List Nat)) : List (List Nat × List Nat) :=
  l.filterMap (fun p =>
    (cstring_new p.1).bind (fun k => (cstring_new p.2).map (fun v => (k, v))))

/-- `ServerVars::into_cstring_pairs` (src/sapi/server_vars.rs). -/
def ServerVars.into_cstring_pairs (sv : ServerVars) : ServerVarsCString where
  vars := cstringPairs sv.vars
  content_type := sv.content_type.bind cstring_new
  query_string := sv.query_string.bind cstring_new
  cookie := sv.cookie.bind cstring_new
  request_method := sv.request_method.bind cstring_new

/-- `From<ExecutionContext> for Box<ServerContext>`
(src/sapi/server_context.rs): move the input body, keep the flag, convert
the server variables, and keep only the NUL-free env and ini pairs. The
process-wide buffer policy read by `ServerContext::new` is explicit. -/
def serverContextFrom (policy : BufferPolicy) (ctx : ExecutionContext) : ServerContext :=
  { ServerContext.new policy with
      post_data := ctx.input
      log_to_stderr := ctx.log_to_stderr
      vars := some ctx.server_vars.into_cstring_pairs
      env_vars := cstringPairs ctx.env_vars
      ini_overrides := cstringPairs ctx.ini_overrides }

theorem send_header_status_code (ctx : ServerContext) (bytes : List Nat) :
    (ripht_sapi_send_header ctx bytes).status_code = ctx.status_code := by
  unfold ripht_sapi_send_header
  split
  · rfl
  · split <;> rfl

theorem foldl_send_header_status_code (hs : List (List Nat)) :
    ∀ ctx : ServerContext,
      (hs.foldl ripht_sapi_send_header ctx).status_code = ctx.status_code := by
  induction hs with
  | nil => intro ctx; rfl
  | cons b rest ih =>
    intro ctx
    rw [List.foldl_cons, ih, send_header_status_code]

theorem foldl_send_header_headers (hs : List (List Nat)) :
    ∀ ctx : ServerContext,
      (hs.foldl ripht_sapi_send_header ctx).response_headers =
        ctx.response_headers ++
          hs.filterMap (fun b =>
            if b.length = 0 then none else ResponseHeader.parse b) := by
  induction hs with
  | nil => intro ctx; simp
  | cons b rest ih =>
    intro ctx
    rw [List.foldl_cons, ih, List.filterMap_cons]
    by_cases hb : b.length = 0
    · simp [ripht_sapi_send_header, hb]
    · rcases hp : ResponseHeader.parse b with _ | h
      · simp [ripht_sapi_send_header, hb, hp]
      · simp [ripht_sapi_send_header, hb, hp, ServerContext.add_header]

/-- C5: the status recorded in the ServerContext by the send-headers
callback, and hence the status observed in the execution result, is the
presented value when it lies in [100, 599] and 500 otherwise. -/
theorem C5_status_clamped_to_500 (ctx : ServerContext) (status : Int)
    (headers : List (List Nat)) (body : List Nat) :
    (100 ≤ status ∧ status ≤ 599 →
      (ripht_sapi_send_headers ctx status headers).status_code = status.toNat ∧
      ((ripht_sapi_send_headers ctx status headers).into_result body).status
        = status.toNat) ∧
    (¬ (100 ≤ status ∧ status ≤ 599) →
      (ripht_sapi_send_headers ctx status headers).status_code = 500 ∧
      ((ripht_sapi_send_headers ctx status headers).into_result body).status
        = 500) := by
  constructor
  · intro hin
    unfold ripht_sapi_send_headers ServerContext.into_result
    rw [foldl_send_header_status_code]
    simp [ServerContext.set_status, HTTP_STATUS_MIN, HTTP_STATUS_MAX, hin.1, hin.2]
  · intro hout
    unfold ripht_sapi_send_headers ServerContext.into_result
    rw [foldl_send_header_status_code]
    simp only [HTTP_STATUS_MIN, HTTP_STATUS_MAX, HTTP_STATUS_FALLBACK, if_pos hout]
    exact ⟨rfl, rfl⟩

theorem C5_witness :
    (ripht_sapi_send_headers (ServerContext.new ⟨65536, Growth.X4⟩) 204 []).status_code
      = (204 : Int).toNat ∧
    ((ripht_sapi_send_headers (ServerContext.new ⟨65536, Growth.X4⟩) (-1) []).into_result []).status
      = 500 := by
  constructor
  · exact ((C5_status_clamped_to_500 (ServerContext.new ⟨65536, Growth.X4⟩) 204 [] []).1
      (by constructor <;> decide)).1
  · exact ((C5_status_clamped_to_500 (ServerContext.new ⟨65536, Growth.X4⟩) (-1) [] []).2
      (by decide)).2

/-- A request context that has already captured one response header,
exhibiting the clearing behaviour of the send-headers callback. -/
def ctxWithOneHeader : ServerContext :=
  { ServerContext.new ⟨65536, Growth.X4⟩ with
      response_headers := [⟨[88], [49]⟩] }

/-- C7 counterexample: the claim says no operation during the request
removes previously captured headers, but `ripht_sapi_send_headers` clears
the captured list before repopulating it from the engine's native list.
With one header already captured and an empty native list, the list
shrinks from one entry to none. -/
theorem C7_counterexample_send_headers_removes :
    ctxWithOneHeader.response_headers = [⟨[88], [49]⟩] ∧
    (ripht_sapi_send_headers ctxWithOneHeader 200 []).response_headers = [] := by
  constructor
  · rfl
  · rfl

/-- C7 amended: `add_header` is append-only (repeated names preserved as
distinct entries, in order), and within one send-headers pass entries are
only appended; but `ripht_sapi_send_headers` first clears the captured
list and then rebuilds it from the engine's full native header list, so
its result is exactly the parsed native list (duplicates preserved, in
emission order) regardless of what was captured before. -/
theorem C7_amended_append_only_within_pass (ctx : ServerContext)
    (h : ResponseHeader) (status : Int) (raws : List (List Nat)) :
    (ctx.add_header h).response_headers = ctx.response_headers ++ [h] ∧
    (ripht_sapi_send_headers ctx status raws).response_headers =
      raws.filterMap (fun b =>
        if b.length = 0 then none else ResponseHeader.parse b) := by
  constructor
  · rfl
  · unfold ripht_sapi_send_headers
    rw [foldl_send_header_headers]
    rfl

theorem cstringPair_eval (k v : List Nat) :
    ((cstring_new k).bind (fun a => (cstring_new v).map (fun b => (a, b))))
      = if 0 ∈ k ∨ 0 ∈ v then none else some (k, v) := by
  unfold cstring_new
  by_cases h1 : 0 ∈ k <;> by_cases h2 : 0 ∈ v <;> simp [h1, h2]

theorem cstringPairs_eq_filter (l : List (List Nat × List Nat)) :
    cstringPairs l =
      l.filter (fun p => !(decide (0 ∈ p.1)) && !(decide (0 ∈ p.2))) := by
  unfold cstringPairs
  simp only [cstringPair_eval]
  induction l with
  | nil => rfl
  | cons p rest ih =>
    rw [List.filterMap_cons, List.filter_cons]
    rcases Classical.em (0 ∈ p.1 ∨ 0 ∈ p.2) with h | h
    · have hb : (!(decide (0 ∈ p.1)) && !(decide (0 ∈ p.2))) = false := by
        rcases h with h | h <;> simp [h]
      simp [if_pos h, hb, ih]
    · have hb : (!(decide (0 ∈ p.1)) && !(decide (0 ∈ p.2))) = true := by
        push_neg at h
        simp [h.1, h.2]
      simp [if_neg h, hb, ih]

/-- C9: converting an ExecutionContext into the request ServerContext
silently omits every env-var pair and every ini-override pair whose key
or value contains a NUL byte, keeps all other pairs in order, and reports
no error (the conversion is total). -/
theorem C9_nul_pairs_silently_omitted (policy : BufferPolicy)
    (ctx : ExecutionContext) :
    (serverContextFrom policy ctx).env_vars =
      ctx.env_vars.filter (fun p => !(decide (0 ∈ p.1)) && !(decide (0 ∈ p.2))) ∧
    (serverContextFrom policy ctx).ini_overrides =
      ctx.ini_overrides.filter (fun p => !(decide (0 ∈ p.1)) && !(decide (0 ∈ p.2))) := by
  constructor
  · exact cstringPairs_eq_filter ctx.env_vars
  · exact cstringPairs_eq_filter ctx.ini_overrides

theorem fixedGrowLoop_reaches (step required : Nat) (hstep : 1 ≤ step)
    (hreq : required ≤ USIZE_MAX) :
    ∀ fuel cap, required ≤ cap + fuel →
      required ≤ fixedGrowLoop fuel required step cap := by
  intro fuel
  induction fuel with
  | zero =>
    intro cap hcap
    simpa [fixedGrowLoop] using hcap
  | succ n ih =>
    intro cap hcap
    unfold fixedGrowLoop
    split
    · apply ih
      unfold usizeSatAdd
      omega
    · omega

theorem fixedGrowLoop_minimal (step required : Nat)
    (hreq : required ≤ USIZE_MAX) :
    ∀ fuel cap k, required ≤ cap + k * step →
      fixedGrowLoop fuel required step cap ≤ cap + k * step := by
  intro fuel
  induction fuel with
  | zero =>
    intro cap k _
    simp [fixedGrowLoop]
  | succ n ih =>
    intro cap k hk
    unfold fixedGrowLoop
    split
    · rename_i hlt
      have hk1 : 1 ≤ k := by
        by_contra hk0
        have : k = 0 := by omega
        subst this
        omega
      have hks : step ≤ k * step := Nat.le_mul_of_pos_left step (by omega)
      rcases Nat.le_total (cap + step) USIZE_MAX with hle | hgt
      · have hs : usizeSatAdd cap step = cap + step := by
          unfold usizeSatAdd
          omega
        rw [hs]
        have := ih (cap + step) (k - 1)
          (by
            have : cap + step + (k - 1) * step = cap + k * step := by
              have : (k - 1) * step + step = k * step := by
                have hkk : k - 1 + 1 = k := by omega
                calc (k - 1) * step + step = (k - 1 + 1) * step := by ring
                  _ = k * step := by rw [hkk]
              omega
            omega)
        calc fixedGrowLoop n required step (cap + step)
            ≤ cap + step + (k - 1) * step := this
          _ ≤ cap + k * step := by
              have : (k - 1) * step + step = k * step := by
                have hkk : k - 1 + 1 = k := by omega
                calc (k - 1) * step + step = (k - 1 + 1) * step := by ring
                  _ = k * step := by rw [hkk]
              omega
      · have hs : usizeSatAdd cap step = USIZE_MAX := by
          unfold usizeSatAdd
          omega
        rw [hs]
        have hres := ih USIZE_MAX 0 (by omega)
        have : USIZE_MAX ≤ cap + k * step := by omega
        omega
    · omega

/-- C8 counterexample: with the ×4 strategy and the default 64KiB initial
capacity, a pending write of 1048576 bytes into an empty buffer produces
capacity 1114112, yet 1048576 = 65536·4·4 both lies on the ×4 schedule
and fits the write — so the computed capacity is not the smallest
capacity satisfying the strategy that fits the pending write. -/
theorem C8_counterexample_not_smallest_capacity :
    grownCapacity ⟨65536, Growth.X4⟩ 65536 1048576 = 1114112 ∧
    65536 * 4 * 4 = 1048576 ∧
    (1048576 : Nat) < 1114112 := by
  refine ⟨?_, by norm_num, by norm_num⟩
  unfold grownCapacity usizeSatMul USIZE_MAX
  norm_num

/-- C8 amended: on a write exceeding capacity the ×4/×2 strategies take
the larger of the saturating-multiplied capacity and the required size
plus the initial capacity (which always fits the pending write); the
fixed-step strategy takes the smallest stepped-up capacity that fits;
`write_output` raises the buffer capacity to exactly that value. The
initial capacity is read once per process from the environment: default
64KiB, and configured values below the 4KiB floor are rejected in favour
of the default; the computed policy is memoized for the process
lifetime. -/
theorem C8_amended_growth_and_policy (init actual required step n : Nat)
    (g o o2 g2 : Option (List Nat)) (v : List Nat) (p : BufferPolicy) :
    (grownCapacity ⟨init, Growth.X4⟩ actual required
        = max (usizeSatMul actual 4) (required + init) ∧
      required ≤ grownCapacity ⟨init, Growth.X4⟩ actual required) ∧
    (grownCapacity ⟨init, Growth.X2⟩ actual required
        = max (usizeSatMul actual 2) (required + init) ∧
      required ≤ grownCapacity ⟨init, Growth.X2⟩ actual required) ∧
    (1 ≤ step → required ≤ USIZE_MAX →
      required ≤ grownCapacity ⟨init, Growth.Fixed step⟩ actual required ∧
      (∀ k, required ≤ actual + k * step →
        grownCapacity ⟨init, Growth.Fixed step⟩ actual required
          ≤ actual + k * step)) ∧
    (∀ (pol : BufferPolicy) (ctx : ServerContext) (data : List Nat),
      ctx.has_output_callback = false →
      ctx.output_capacity < ctx.output_buffer.length + data.length →
      (ServerContext.write_output pol ctx data).1.output_capacity
        = grownCapacity pol ctx.output_capacity
            (ctx.output_buffer.length + data.length)) ∧
    (computeBufferPolicy none g).initial_cap = 65536 ∧
    4096 ≤ (computeBufferPolicy o g).initial_cap ∧
    (parse_usize v = some n → 4096 ≤ n →
      (computeBufferPolicy (some v) g).initial_cap = n) ∧
    (bufferPolicyGetOrInit (some p) o2 g2).1 = p ∧
    (bufferPolicyGetOrInit none o g).2 = some (computeBufferPolicy o g) := by
  refine ⟨⟨rfl, ?_⟩, ⟨rfl, ?_⟩, ?_, ?_, ?_, ?_, ?_, rfl, rfl⟩
  · exact le_trans (Nat.le_add_right _ _) (le_max_right _ _)
  · exact le_trans (Nat.le_add_right _ _) (le_max_right _ _)
  · intro hstep hreq
    refine ⟨?_, ?_⟩
    · exact fixedGrowLoop_reaches step required hstep hreq (required + 1) actual
        (by omega)
    · intro k hk
      exact fixedGrowLoop_minimal step required hreq (required + 1) actual k hk
  · intro pol ctx data hcb hover
    unfold ServerContext.write_output
    simp [hcb, hover]
  · unfold computeBufferPolicy
    rfl
  · unfold computeBufferPolicy MIN_BUFFER_SIZE DEFAULT_BUFFER_SIZE
    rcases o with _ | v0
    · simp
    · simp only [Option.some_bind]
      rcases hpv : parse_usize v0 with _ | m
      · simp [hpv]
      · simp only [hpv]
        split <;> omega
  · intro hp hn
    unfold computeBufferPolicy MIN_BUFFER_SIZE
    simp [hp, hn]

theorem C8_witness :
    (1048576 : Nat) ≤ grownCapacity ⟨65536, Growth.X4⟩ 65536 1048576 ∧
    (100000 : Nat) ≤ grownCapacity ⟨65536, Growth.Fixed 32768⟩ 65536 100000 ∧
    grownCapacity ⟨65536, Growth.Fixed 32768⟩ 65536 100000 ≤ 65536 + 2 * 32768 ∧
    (computeBufferPolicy none none).initial_cap = 65536 ∧
    4096 ≤ (computeBufferPolicy (some [49, 48, 48]) none).initial_cap ∧
    (computeBufferPolicy (some [56, 49, 57, 50]) none).initial_cap = 8192 := by
  refine ⟨?_, ?_, ?_, ?_, ?_, ?_⟩
  · exact (C8_amended_growth_and_policy 65536 65536 1048576 1 0 none none none none
      [] ⟨65536, Growth.X4⟩).1.2
  · exact ((C8_amended_growth_and_policy 65536 65536 100000 32768 0 none none none
      none [] ⟨65536, Growth.X4⟩).2.2.1 (by norm_num)
        (by unfold USIZE_MAX; norm_num)).1
  · exact ((C8_amended_growth_and_policy 65536 65536 100000 32768 0 none none none
      none [] ⟨65536, Growth.X4⟩).2.2.1 (by norm_num)
        (by unfold USIZE_MAX; norm_num)).2 2 (by norm_num)
  · exact (C8_amended_growth_and_policy 65536 65536 100000 32768 0 none none none
      none [] ⟨65536, Growth.X4⟩).2.2.2.2.1
  · exact (C8_amended_growth_and_policy 65536 65536 100000 32768 0 none
      (some [49, 48, 48]) none none [] ⟨65536, Growth.X4⟩).2.2.2.2.2.1
  · exact (C8_amended_growth_and_policy 65536 65536 100000 32768 8192 none none none
      none [56, 49, 57, 50] ⟨65536, Growth.X4⟩).2.2.2.2.2.2.1
      (by decide) (by norm_num)

/-- `OutputAction` (src/execution/hooks.rs). The executor source matches
these variants under the names `Continue`/`Done` (a mid-rename snapshot);
the first buffers the accumulated output into the body, the second
leaves the body empty. -/
inductive OutputAction where
  | Buffer
  | Handled
deriving DecidableEq, Repr

/-- `ExecutionError` (src/sapi/executor.rs). -/
inductive ExecutionError where
  | InvalidPath (msg : List Nat)
  | ScriptNotFound (path : List Nat)
  | NotInitialized
  | StartupFailed
deriving DecidableEq, Repr

/-- The message built by `ExecutionContext::path_as_cstring` for a path
containing a NUL byte. -/
def pathNulMsg : List Nat :=
  [80, 97, 116, 104, 32, 99, 111, 110, 116, 97, 105, 110, 115, 32,
   110, 117, 108, 108, 32, 98, 121, 116, 101]

/-- `ExecutionContext::path_as_cstring` (src/execution/context.rs): fails
when the path bytes contain a NUL (`to_string_lossy` is modelled as the
identity on the path bytes). -/
def ExecutionContext.path_as_cstring (ctx : ExecutionContext) :
    Except ExecutionError (List Nat) :=
  match cstring_new ctx.script_path with
  | some s => Except.ok s
  | none => Except.error (ExecutionError.InvalidPath pathNulMsg)

/-- `ServerContext::request_method_ptr`: tracked method or the literal
"GET" at either level. -/
def ServerContext.request_method_ptr (ctx : ServerContext) : List Nat :=
  match ctx.vars with
  | some v =>
    match v.request_method with
    | some m => m
    | none => [71, 69, 84]
  | none => [71, 69, 84]

/-- `ServerContext::content_type_ptr` (null as `none`). -/
def ServerContext.content_type_ptr (ctx : ServerContext) : Option (List Nat) :=
  ctx.vars.bind (fun v => v.content_type)

/-- `ServerContext::query_string_ptr` (null as `none`). -/
def ServerContext.query_string_ptr (ctx : ServerContext) : Option (List Nat) :=
  ctx.vars.bind (fun v => v.query_string)

/-- The `ffi::sapi_globals` fields touched by the executor: the single
request-context slot, the request-info pointers, the response-code cell
and the post-read flag. Pointer fields are `Option`-valued (`none` is
null); after the pointee is freed the stale value stands for the dangling
pointer. -/
structure SapiGlobals where
  server_context : Option ServerContext
  request_method : List Nat
  content_type : Option (List Nat)
  content_length : Int
  query_string : Option (List Nat)
  cookie_data : Option (List Nat)
  http_response_code : Int
  post_read : Bool
deriving DecidableEq, Repr

/-- `Executor::setup_globals`. -/
def setup_globals (g : SapiGlobals) (ctx : ServerContext) : SapiGlobals :=
  { g with
      request_method := ctx.request_method_ptr
      content_type := ctx.content_type_ptr
      content_length := (ctx.post_data.length : Int)
      query_string := ctx.query_string_ptr
      http_response_code := 200 }

/-- `Executor::cleanup_globals`. -/
def cleanup_globals (g : SapiGlobals) : SapiGlobals :=
  { g with
      server_context := none
      content_type := none
      query_string := none
      cookie_data := none }

/-- The lifecycle observations delivered to an `ExecutionHooks`
implementation, in call order. -/
inductive HookEvent where
  | contextCreated
  | requestStarting
  | requestStarted
  | scriptExecuting (path : List Nat)
  | scriptExecuted (success : Bool)
  | requestFinishing
  | onHeader (name value : List Nat)
  | onStatus (code : Nat)
  | onPhpMessage (m : ExecutionMessage)
  | onOutput (buf : List Nat)
  | requestFinished (r : ExecutionResult)
deriving DecidableEq, Repr

/-- The value-returning decision functions of an `ExecutionHooks`
implementation (the remaining hook methods return unit and are recorded
only as events). `isNoOp` models the `TypeId` fast-path test against
`NoOpHooks`. -/
structure HooksSpec where
  isNoOp : Bool
  onHeader : List Nat → List Nat → Bool
  onOutput : List Nat → OutputAction

/-- `NoOpHooks` (src/execution/hooks.rs): the trait defaults — accept
every header, buffer all output. -/
def NoOpHooks : HooksSpec where
  isNoOp := true
  onHeader := fun _ _ => true
  onOutput := fun _ => OutputAction.Buffer

/-- The foreign engine as an oracle: whether `php_request_startup`
succeeds, the combined effect of `php_execute_script` on the active
context through the callback bridge (with the script's success flag),
and the effect of `php_request_shutdown`-time callbacks on the context. -/
structure EngineBehavior where
  startupOk : Bool
  run : ServerContext → ServerContext × Bool
  shutdownFx : ServerContext → ServerContext

/-- Engine primitives invoked by the executor, in call order. -/
inductive EngineOp where
  | phpRequestStartup
  | phpRequestShutdown
  | zendAlterIni (key value : List Nat)
  | phpExecuteScript (script : List Nat)
deriving DecidableEq, Repr

/-- Everything observable about one `execute_with_hooks` call: the final
globals, the engine primitives invoked, the hook events delivered, and
the returned result. -/
structure ExecOutcome where
  globals : SapiGlobals
  engineOps : List EngineOp
  hookEvents : List HookEvent
  result : Except ExecutionError ExecutionResult

/-- `Executor::execute_with_hooks` (src/sapi/executor.rs). `initialized`
models `self.sapi.is_initialized()`, `fsExists` the
`ctx.script_path.exists()` probe, `policy` the process-wide buffer policy
read by `ServerContext::new`, and `eng` the foreign engine. The source
order is kept: precondition checks, path conversion,
`on_context_created`, context install plus `setup_globals`,
`on_request_starting`, request startup (on failure: drop the context,
still run request shutdown, clear the slot, return `StartupFailed`), ini
overrides, script execution, request shutdown, slot clear and
`cleanup_globals`, header filtering (NoOp fast path takes all),
`on_status`, message replay, single `on_output` call deciding the body,
result assembly, `on_request_finished`. -/
def execute_with_hooks (initialized : Bool) (fsExists : List Nat → Bool)
    (policy : BufferPolicy) (eng : EngineBehavior) (g : SapiGlobals)
    (ctx : ExecutionContext) (hooks : HooksSpec) : ExecOutcome :=
  if initialized = false then
    ⟨g, [], [], Except.error ExecutionError.NotInitialized⟩
  else if fsExists ctx.script_path = false then
    ⟨g, [], [], Except.error (ExecutionError.ScriptNotFound ctx.script_path)⟩
  else
    match ctx.path_as_cstring with
    | Except.error e => ⟨g, [], [], Except.error e⟩
    | Except.ok script =>
      let ev0 := [HookEvent.contextCreated]
      let sc := serverContextFrom policy ctx
      let g1 := setup_globals { g with server_context := some sc } sc
      let ev1 := ev0 ++ [HookEvent.requestStarting]
      if eng.startupOk = false then
        ⟨{ g1 with server_context := none },
          [EngineOp.phpRequestStartup, EngineOp.phpRequestShutdown],
          ev1, Except.error ExecutionError.StartupFailed⟩
      else
        let iniOps := sc.ini_overrides.map (fun p => EngineOp.zendAlterIni p.1 p.2)
        let ev2 := ev1 ++ [HookEvent.requestStarted,
                           HookEvent.scriptExecuting ctx.script_path]
        let runOut := eng.run sc
        let success := runOut.2
        let ev3 := ev2 ++ [HookEvent.scriptExecuted success,
                           HookEvent.requestFinishing]
        let sc2 := eng.shutdownFx runOut.1
        let g2 := cleanup_globals
          { g1 with post_read := true, server_context := none }
        let headers :=
          if hooks.isNoOp then sc2.response_headers
          else sc2.response_headers.filter (fun h => hooks.onHeader h.name h.value)
        let headerEv :=
          if hooks.isNoOp then []
          else sc2.response_headers.map (fun h => HookEvent.onHeader h.name h.value)
        let status := sc2.status_code
        let body :=
          match hooks.onOutput sc2.output_buffer with
          | OutputAction.Buffer => sc2.output_buffer
          | OutputAction.Handled => []
        let result : ExecutionResult := ⟨status, body, headers, sc2.messages⟩
        ⟨g2,
          [EngineOp.phpRequestStartup] ++ iniOps
            ++ [EngineOp.phpExecuteScript script, EngineOp.phpRequestShutdown],
          ev3 ++ headerEv ++ [HookEvent.onStatus status]
            ++ sc2.messages.map HookEvent.onPhpMessage
            ++ [HookEvent.onOutput sc2.output_buffer,
                HookEvent.requestFinished result],
          Except.ok result⟩

/-- A closed `SapiGlobals` value used to exercise the executor. -/
def emptyGlobals : SapiGlobals where
  server_context := none
  request_method := []
  content_type := none
  content_length := 0
  query_string := none
  cookie_data := none
  http_response_code := 0
  post_read := false

/-- A closed `ExecutionContext` used to exercise the executor. -/
def sampleExecCtx : ExecutionContext where
  input := []
  script_path := [47, 97]
  server_vars := ⟨none, [], none, none, none⟩
  env_vars := []
  ini_overrides := []
  log_to_stderr := false

/-- An engine whose script execution is a no-op. -/
def idleEngine : EngineBehavior where
  startupOk := true
  run := fun c => (c, true)
  shutdownFx := fun c => c

/-- An engine whose request startup fails. -/
def failingEngine : EngineBehavior where
  startupOk := false
  run := fun c => (c, true)
  shutdownFx := fun c => c

/-- C1: with the engine uninitialized the call returns `NotInitialized`;
initialized but with a missing script it returns `ScriptNotFound`
carrying that path; in both cases the globals are returned untouched and
no engine primitive or hook ran, so a subsequent call with any context
and hooks behaves exactly as if the failed attempt had never happened. -/
theorem C1_precondition_failures_leave_state_untouched
    (fsExists : List Nat → Bool) (policy : BufferPolicy)
    (eng : EngineBehavior) (g : SapiGlobals) (ctx : ExecutionContext)
    (hooks : HooksSpec) :
    (execute_with_hooks false fsExists policy eng g ctx hooks
      = ⟨g, [], [], Except.error ExecutionError.NotInitialized⟩) ∧
    (fsExists ctx.script_path = false →
      execute_with_hooks true fsExists policy eng g ctx hooks
        = ⟨g, [], [],
            Except.error (ExecutionError.ScriptNotFound ctx.script_path)⟩) ∧
    (fsExists ctx.script_path = false →
      ∀ (ctx2 : ExecutionContext) (hooks2 : HooksSpec),
        execute_with_hooks true fsExists policy eng
            (execute_with_hooks true fsExists policy eng g ctx hooks).globals
            ctx2 hooks2
          = execute_with_hooks true fsExists policy eng g ctx2 hooks2) := by
  refine ⟨?_, ?_, ?_⟩
  · rfl
  · intro h
    unfold execute_with_hooks
    simp [h]
  · intro h ctx2 hooks2
    have h2 : execute_with_hooks true fsExists policy eng g ctx hooks
        = ⟨g, [], [],
            Except.error (ExecutionError.ScriptNotFound ctx.script_path)⟩ := by
      unfold execute_with_hooks
      simp [h]
    rw [h2]

theorem C1_witness :
    (execute_with_hooks false (fun _ => false) ⟨65536, Growth.X4⟩ idleEngine
        emptyGlobals sampleExecCtx NoOpHooks
      = ⟨emptyGlobals, [], [], Except.error ExecutionError.NotInitialized⟩) ∧
    (execute_with_hooks true (fun _ => false) ⟨65536, Growth.X4⟩ idleEngine
        emptyGlobals sampleExecCtx NoOpHooks
      = ⟨emptyGlobals, [], [],
          Except.error (ExecutionError.ScriptNotFound [47, 97])⟩) ∧
    (execute_with_hooks true (fun _ => false) ⟨65536, Growth.X4⟩ idleEngine
        (execute_with_hooks true (fun _ => false) ⟨65536, Growth.X4⟩ idleEngine
          emptyGlobals sampleExecCtx NoOpHooks).globals
        sampleExecCtx NoOpHooks
      = execute_with_hooks true (fun _ => false) ⟨65536, Growth.X4⟩ idleEngine
          emptyGlobals sampleExecCtx NoOpHooks) := by
  refine ⟨?_, ?_, ?_⟩
  · exact (C1_precondition_failures_leave_state_untouched (fun _ => false)
      ⟨65536, Growth.X4⟩ idleEngine emptyGlobals sampleExecCtx NoOpHooks).1
  · exact (C1_precondition_failures_leave_state_untouched (fun _ => false)
      ⟨65536, Growth.X4⟩ idleEngine emptyGlobals sampleExecCtx NoOpHooks).2.1 rfl
  · exact (C1_precondition_failures_leave_state_untouched (fun _ => false)
      ⟨65536, Growth.X4⟩ idleEngine emptyGlobals sampleExecCtx NoOpHooks).2.2 rfl
      sampleExecCtx NoOpHooks

/-- C2: when request startup fails the call returns `StartupFailed`, the
request-context slot is null on exit, and the engine request-shutdown
primitive was still invoked (the ops are exactly startup then shutdown,
and the dropped ServerContext is returned nowhere); when startup succeeds
the slot is equally null on exit. -/
theorem C2_startup_failure_cleanup (fsExists : List Nat → Bool)
    (policy : BufferPolicy) (eng : EngineBehavior) (g : SapiGlobals)
    (ctx : ExecutionContext) (hooks : HooksSpec)
    (hfs : fsExists ctx.script_path = true)
    (hpath : 0 ∉ ctx.script_path) :
    (eng.startupOk = false →
      (execute_with_hooks true fsExists policy eng g ctx hooks).result
          = Except.error ExecutionError.StartupFailed ∧
      (execute_with_hooks true fsExists policy eng g ctx
          hooks).globals.server_context = none ∧
      (execute_with_hooks true fsExists policy eng g ctx hooks).engineOps
          = [EngineOp.phpRequestStartup, EngineOp.phpRequestShutdown]) ∧
    (eng.startupOk = true →
      (execute_with_hooks true fsExists policy eng g ctx
          hooks).globals.server_context = none) := by
  have hcs : ctx.path_as_cstring = Except.ok ctx.script_path := by
    unfold ExecutionContext.path_as_cstring cstring_new
    simp [hpath]
  constructor
  · intro hs
    unfold execute_with_hooks
    simp [hfs, hcs, hs]
  · intro hs
    unfold execute_with_hooks
    simp [hfs, hcs, hs, cleanup_globals]

theorem C2_witness :
    ((execute_with_hooks true (fun _ => true) ⟨65536, Growth.X4⟩ failingEngine
        emptyGlobals sampleExecCtx NoOpHooks).result
      = Except.error ExecutionError.StartupFailed) ∧
    ((execute_with_hooks true (fun _ => true) ⟨65536, Growth.X4⟩ failingEngine
        emptyGlobals sampleExecCtx NoOpHooks).globals.server_context = none) ∧
    ((execute_with_hooks true (fun _ => true) ⟨65536, Growth.X4⟩ failingEngine
        emptyGlobals sampleExecCtx NoOpHooks).engineOps
      = [EngineOp.phpRequestStartup, EngineOp.phpRequestShutdown]) ∧
    ((execute_with_hooks true (fun _ => true) ⟨65536, Growth.X4⟩ idleEngine
        emptyGlobals sampleExecCtx NoOpHooks).globals.server_context = none) := by
  have hfail := C2_startup_failure_cleanup (fun _ => true) ⟨65536, Growth.X4⟩
    failingEngine emptyGlobals sampleExecCtx NoOpHooks rfl (by decide)
  have hok := C2_startup_failure_cleanup (fun _ => true) ⟨65536, Growth.X4⟩
    idleEngine emptyGlobals sampleExecCtx NoOpHooks rfl (by decide)
  exact ⟨(hfail.1 rfl).1, (hfail.1 rfl).2.1, (hfail.1 rfl).2.2, hok.2 rfl⟩

/-- The arguments of the on_output invocations recorded in a hook trace,
in order. -/
def onOutputArgs (events : List HookEvent) : List (List Nat) :=
  events.filterMap (fun e =>
    match e with
    | HookEvent.onOutput b => some b
    | _ => none)

theorem onOutputArgs_append (a b : List HookEvent) :
    onOutputArgs (a ++ b) = onOutputArgs a ++ onOutputArgs b :=
  List.filterMap_append a b _

theorem onOutputArgs_header_events (c : Bool) (l : List ResponseHeader) :
    onOutputArgs
        (if c then [] else l.map (fun h => HookEvent.onHeader h.name h.value))
      = [] := by
  cases c
  · simp [onOutputArgs]
  · rfl

theorem onOutputArgs_message_events (l : List ExecutionMessage) :
    onOutputArgs (l.map HookEvent.onPhpMessage) = [] := by
  simp [onOutputArgs]

/-- C3: on the completed path (initialized, script present, NUL-free path,
startup succeeded), execute_with_hooks delivers on_output exactly once,
with the full accumulated output buffer as its argument; when the hook
answers Buffer the result body is that buffer, and when it answers
Handled the result body is empty. -/
theorem C3_on_output_called_once_decides_body (fsExists : List Nat → Bool)
    (policy : BufferPolicy) (eng : EngineBehavior) (g : SapiGlobals)
    (ctx : ExecutionContext) (hooks : HooksSpec)
    (hfs : fsExists ctx.script_path = true)
    (hpath : 0 ∉ ctx.script_path)
    (hok : eng.startupOk = true) :
    onOutputArgs
        (execute_with_hooks true fsExists policy eng g ctx hooks).hookEvents
      = [(eng.shutdownFx
            (eng.run (serverContextFrom policy ctx)).1).output_buffer] ∧
    (hooks.onOutput
        (eng.shutdownFx (eng.run (serverContextFrom policy ctx)).1).output_buffer
          = OutputAction.Buffer →
      (execute_with_hooks true fsExists policy eng g ctx hooks).result.map
          ExecutionResult.body
        = Except.ok (eng.shutdownFx
            (eng.run (serverContextFrom policy ctx)).1).output_buffer) ∧
    (hooks.onOutput
        (eng.shutdownFx (eng.run (serverContextFrom policy ctx)).1).output_buffer
          = OutputAction.Handled →
      (execute_with_hooks true fsExists policy eng g ctx hooks).result.map
          ExecutionResult.body
        = Except.ok []) := by
  have hcs : ctx.path_as_cstring = Except.ok ctx.script_path := by
    unfold ExecutionContext.path_as_cstring cstring_new
    simp [hpath]
  refine ⟨?_, ?_, ?_⟩
  · unfold execute_with_hooks
    simp only [hfs, hcs, hok, Bool.true_eq_false, if_false]
    simp only [onOutputArgs_append, onOutputArgs_header_events,
      onOutputArgs_message_events]
    simp [onOutputArgs]
  · intro hb
    unfold execute_with_hooks
    simp only [hfs, hcs, hok, Bool.true_eq_false, if_false]
    simp [Except.map, hb]
  · intro hb
    unfold execute_with_hooks
    simp only [hfs, hcs, hok, Bool.true_eq_false, if_false]
    simp [Except.map, hb]

/-- An engine whose script execution performs one raw output write. -/
def writingEngine : EngineBehavior where
  startupOk := true
  run := fun c =>
    ((ServerContext.write_output ⟨65536, Growth.X4⟩ c [104, 105]).1, true)
  shutdownFx := fun c => c

theorem C3_witness :
    onOutputArgs
        (execute_with_hooks true (fun _ => true) ⟨65536, Growth.X4⟩
          writingEngine emptyGlobals sampleExecCtx NoOpHooks).hookEvents
      = [[104, 105]] ∧
    (execute_with_hooks true (fun _ => true) ⟨65536, Growth.X4⟩ writingEngine
        emptyGlobals sampleExecCtx NoOpHooks).result.map ExecutionResult.body
      = Except.ok [104, 105] := by
  have h := C3_on_output_called_once_decides_body (fun _ => true)
    ⟨65536, Growth.X4⟩ writingEngine emptyGlobals sampleExecCtx NoOpHooks
    rfl (by decide) rfl
  exact ⟨h.1, h.2.1 rfl⟩

theorem write_output_no_callback (policy : BufferPolicy)
    (ctx : ServerContext) (data : List Nat)
    (h : ctx.has_output_callback = false) :
    (ServerContext.write_output policy ctx data).1.output_buffer
        = ctx.output_buffer ++ data ∧
    (ServerContext.write_output policy ctx data).1.has_output_callback = false ∧
    (ServerContext.write_output policy ctx data).2 = data.length := by
  unfold ServerContext.write_output
  simp [h]

theorem writes_foldl_concat (policy : BufferPolicy) (chunks : List (List Nat)) :
    ∀ ctx : ServerContext, ctx.has_output_callback = false →
      (chunks.foldl (fun a d => (ServerContext.write_output policy a d).1)
          ctx).output_buffer
        = ctx.output_buffer ++ chunks.flatten ∧
      (chunks.foldl (fun a d => (ServerContext.write_output policy a d).1)
          ctx).has_output_callback = false := by
  induction chunks with
  | nil =>
    intro ctx h
    exact ⟨by simp, h⟩
  | cons d rest ih =>
    intro ctx h
    have hw := write_output_no_callback policy ctx d h
    have hr := ih _ hw.2.1
    rw [List.foldl_cons]
    refine ⟨?_, hr.2⟩
    rw [hr.1, hw.1]
    simp

/-- C4: a script that performs N raw output writes, with no streaming
callback installed and the no-op hooks (which buffer everything), yields
a result body whose content — and hence length — is the exact
concatenation of the written chunks in write order. -/
theorem C4_body_is_exact_concatenation (fsExists : List Nat → Bool)
    (policy : BufferPolicy) (g : SapiGlobals) (ctx : ExecutionContext)
    (chunks : List (List Nat))
    (hfs : fsExists ctx.script_path = true)
    (hpath : 0 ∉ ctx.script_path) :
    (execute_with_hooks true fsExists policy
        ⟨true,
         fun c => (chunks.foldl
           (fun a d => (ServerContext.write_output policy a d).1) c, true),
         fun c => c⟩
        g ctx NoOpHooks).result.map ExecutionResult.body
      = Except.ok chunks.flatten ∧
    (execute_with_hooks true fsExists policy
        ⟨true,
         fun c => (chunks.foldl
           (fun a d => (ServerContext.write_output policy a d).1) c, true),
         fun c => c⟩
        g ctx NoOpHooks).result.map (fun r => r.body.length)
      = Except.ok chunks.flatten.length := by
  have hcs : ctx.path_as_cstring = Except.ok ctx.script_path := by
    unfold ExecutionContext.path_as_cstring cstring_new
    simp [hpath]
  have hcb : (serverContextFrom policy ctx).has_output_callback = false := rfl
  have hbuf := (writes_foldl_concat policy chunks (serverContextFrom policy ctx) hcb).1
  have hnil : (serverContextFrom policy ctx).output_buffer = [] := rfl
  rw [hnil] at hbuf
  constructor
  · unfold execute_with_hooks
    simp only [hfs, hcs, Bool.true_eq_false, if_false]
    simp [Except.map, NoOpHooks, hbuf]
  · unfold execute_with_hooks
    simp only [hfs, hcs, Bool.true_eq_false, if_false]
    simp [Except.map, NoOpHooks, hbuf]

theorem C4_witness :
    (execute_with_hooks true (fun _ => true) ⟨65536, Growth.X4⟩
        ⟨true,
         fun c => ([[104, 101], [108, 108, 111]].foldl
           (fun a d => (ServerContext.write_output ⟨65536, Growth.X4⟩ a d).1) c,
           true),
         fun c => c⟩
        emptyGlobals sampleExecCtx NoOpHooks).result.map ExecutionResult.body
      = Except.ok [104, 101, 108, 108, 111] :=
  (C4_body_is_exact_concatenation (fun _ => true) ⟨65536, Growth.X4⟩
    emptyGlobals sampleExecCtx [[104, 101], [108, 108, 111]] rfl (by decide)).1
